import Mathlib

/-!
Verification of the ranking-and-reporting pipeline of the sp500-monitor
repository (src/sp500_tracker.py, the gainers variant, and
src/sp500_losers.py, the losers variant).

The two scripts are shallowly embedded: pandas float entries are modelled
by `PVal` (finite rationals plus NaN and the two infinities, the values a
`pct_change` column entry can take), `Series.nlargest` / `Series.nsmallest`
with the default keep-first tie policy are modelled as a stable sort
followed by `take`, Python `f"{x:.2f}"` formatting is modelled by `fmt2`
over exact rationals (round half to even), provider calls and the delivery
sink are modelled as explicit data in an `Env` record, and each script's
`main` is modelled as a function from `Env` to a trace of delivery events.
-/

namespace SP500

/-- A pandas float cell as it matters to this pipeline: NaN, an infinity,
or a finite value (modelled exactly as a rational). `pct_change` produces
NaN for a missing prior and an infinity for division by a zero prior. -/
inductive PVal where
  | nan : PVal
  | negInf : PVal
  | val : ℚ → PVal
  | posInf : PVal
deriving DecidableEq

/-- Comparison "a is at least b" on `PVal`, used for the descending sort of
`Series.nlargest`. NaN rows are filtered out before it is ever used; the
NaN clauses only make the function total. -/
def pvGE : PVal → PVal → Bool
  | .nan, _ => true
  | _, .nan => false
  | .posInf, _ => true
  | _, .posInf => false
  | _, .negInf => true
  | .negInf, _ => false
  | .val x, .val y => decide (y ≤ x)

/-- Comparison "a is at most b", used for the ascending sort of
`Series.nsmallest`. -/
def pvLE (a b : PVal) : Bool := pvGE b a

/-- Models the last row of `DataFrame.pct_change()` for one column, given
the column's observed closing values in time order (src/sp500_tracker.py
line 129, src/sp500_losers.py line 131): `(last - prior) / prior` with
IEEE semantics for a zero prior, NaN when fewer than two points exist. -/
def pctOfLastTwo : List ℚ → PVal
  | last :: prior :: _ =>
      if prior = 0 then
        if last = 0 then PVal.nan
        else if 0 < last then PVal.posInf
        else PVal.negInf
      else PVal.val ((last - prior) / prior)
  | _ => PVal.nan

/-- The per-entity change: `pct_change` of the series evaluated at the last
row, i.e. `pctOfLastTwo` of the reversed series. -/
def pctChangeLast (series : List ℚ) : PVal := pctOfLastTwo series.reverse

/-- Stable insertion, auxiliary to `sortBy`. -/
def insertBy (le : α → α → Bool) (a : α) : List α → List α
  | [] => [a]
  | b :: l => if le a b then a :: b :: l else b :: insertBy le a l

/-- Stable sort by a boolean comparison: an element is inserted before the
first element of the sorted tail it compares `le` to, so elements that
compare equal keep their input order. -/
def sortBy (le : α → α → Bool) : List α → List α
  | [] => []
  | a :: l => insertBy le a (sortBy le l)

/-- NaN rows are excluded by `nlargest` / `nsmallest` before ranking. -/
def dropNaN (changes : List (String × PVal)) : List (String × PVal) :=
  changes.filter (fun p => p.2 ≠ PVal.nan)

/-- Models `returns.nlargest(n)` (src/sp500_tracker.py line 130) with the
default keep-first tie policy: drop NaN entries, stable sort descending by
value, keep the first `n`. -/
def selectTop (n : Nat) (changes : List (String × PVal)) : List (String × PVal) :=
  (sortBy (fun a b => pvGE a.2 b.2) (dropNaN changes)).take n

/-- Models `returns.nsmallest(n)` (src/sp500_losers.py line 132): drop NaN
entries, stable sort ascending by value, keep the first `n`. -/
def selectBottom (n : Nat) (changes : List (String × PVal)) : List (String × PVal) :=
  (sortBy (fun a b => pvLE a.2 b.2) (dropNaN changes)).take n

/-- Floor of a rational: `Int.fdiv` of numerator by (positive) denominator. -/
def qfloor (x : ℚ) : ℤ := Int.fdiv x.num (x.den : ℤ)

/-- Rounding to the nearest integer with ties to even, the rounding Python
applies when formatting with two decimals. -/
def roundHalfEven (x : ℚ) : ℤ :=
  let f := qfloor x
  let r := x - (f : ℚ)
  if r < 1/2 then f
  else if 1/2 < r then f + 1
  else if f % 2 = 0 then f else f + 1

/-- Two-digit rendering of a remainder below 100. -/
def pad2 (r : ℕ) : String := (if r < 10 then "0" else "") ++ toString r

/-- Models Python `f"{x:.2f}"` over an exact rational: round `x * 100` half
to even, then print with two digits after the point. -/
def fmt2 (q : ℚ) : String :=
  let c := roundHalfEven (q * 100)
  (if c < 0 then "-" else "") ++ toString (c.natAbs / 100) ++ "." ++ pad2 (c.natAbs % 100)

/-- The `yfinance` info fields this pipeline reads. `none` models a field
that is absent (or carries a non-numeric value) in the provider mapping. -/
structure TickerInfo where
  trailingPE : Option ℚ
  forwardPE : Option ℚ
  trailingAnnualDividendRate : Option ℚ
  dividendYield : Option ℚ
  longBusinessSummary : String
deriving DecidableEq

/-- Models the P/E resolution of both scripts:
`info.get('trailingPE', info.get('forwardPE', 'N/A'))`, formatted with two
decimals when numeric (src/sp500_tracker.py lines 61-63,
src/sp500_losers.py lines 58-60). -/
def peString (info : TickerInfo) : String :=
  match info.trailingPE with
  | some v => fmt2 v
  | none =>
    match info.forwardPE with
    | some v => fmt2 v
    | none => "N/A"

/-- Models the gainers variant's yield rendering (src/sp500_tracker.py
lines 65-69): a numeric `dividendYield` is always scaled by 100; an absent
or non-numeric one renders as "N/A". -/
def trackerDivYield (dividendYield : Option ℚ) : String :=
  match dividendYield with
  | some v => fmt2 (v * 100) ++ "%"
  | none => "N/A"

/-- Models the losers variant's fallback on the raw `dividendYield` field
(src/sp500_losers.py lines 70-78): a raw value above 0.3 is treated as
already a percentage and rendered as-is, otherwise it is scaled by 100;
absent renders as "N/A". -/
def losersDivYieldFallback (dividendYield : Option ℚ) : String :=
  match dividendYield with
  | some raw => if (3 : ℚ)/10 < raw then fmt2 raw ++ "%" else fmt2 (raw * 100) ++ "%"
  | none => "N/A"

/-- Models the losers variant's yield resolution (src/sp500_losers.py
lines 63-78): when `trailingAnnualDividendRate` is numeric and the close
price is positive, the yield is recomputed as rate / close × 100 and a
non-positive result renders as "0.00%"; otherwise the raw-field fallback
applies. -/
def losersDivYield (trailingRate : Option ℚ) (dividendYield : Option ℚ)
    (closePrice : ℚ) : String :=
  match trailingRate with
  | some rate =>
    if 0 < closePrice then
      if 0 < rate / closePrice * 100 then fmt2 (rate / closePrice * 100) ++ "%" else "0.00%"
    else losersDivYieldFallback dividendYield
  | none => losersDivYieldFallback dividendYield

/-- Models the Python slice `s[:300]` guarded by `len(s) > 300`
(src/sp500_tracker.py lines 76-77, src/sp500_losers.py lines 84-85),
character-exact: Python strings slice by characters, as does the
underlying character list of a Lean string. -/
def pyTruncate (n : Nat) (s : String) : String :=
  if n < s.data.length then String.mk (s.data.take n) else s

/-- The body of the gainers variant's `get_company_details` try-block
(src/sp500_tracker.py lines 57-82): resolve P/E and yield strings, return
the no-summary sentinel when the long-form text is empty, otherwise
translate the first 300 characters; a raised translation failure is an
error of the body. -/
def trackerDetailsBody (info : TickerInfo)
    (translate : String → Except Unit String) : Except Unit (String × String × String) :=
  let pe := peString info
  let dy := trackerDivYield info.dividendYield
  if info.longBusinessSummary = "" then Except.ok ("暫無簡介", pe, dy)
  else
    match translate (pyTruncate 300 info.longBusinessSummary) with
    | Except.ok t => Except.ok (t ++ "...", pe, dy)
    | Except.error e => Except.error e

/-- Models the gainers variant's `get_company_details` (src/sp500_tracker.py
lines 54-86): any raised step — the metadata fetch itself or the body —
is caught and turned into the sentinel triple. Total by construction: no
exception escapes to the caller. -/
def trackerGetCompanyDetails (fetchInfo : Except Unit TickerInfo)
    (translate : String → Except Unit String) : String × String × String :=
  match fetchInfo with
  | Except.error _ => ("無法獲取簡介 (翻譯失敗)", "N/A", "N/A")
  | Except.ok info =>
    match trackerDetailsBody info translate with
    | Except.ok r => r
    | Except.error _ => ("無法獲取簡介 (翻譯失敗)", "N/A", "N/A")

/-- The body of the losers variant's `get_company_details` try-block
(src/sp500_losers.py lines 54-90). -/
def losersDetailsBody (info : TickerInfo) (translate : String → Except Unit String)
    (closePrice : ℚ) : Except Unit (String × String × String) :=
  let pe := peString info
  let dy := losersDivYield info.trailingAnnualDividendRate info.dividendYield closePrice
  if info.longBusinessSummary = "" then Except.ok ("暫無簡介", pe, dy)
  else
    match translate (pyTruncate 300 info.longBusinessSummary) with
    | Except.ok t => Except.ok (t ++ "...", pe, dy)
    | Except.error e => Except.error e

/-- Models the losers variant's `get_company_details` (src/sp500_losers.py
lines 51-94): any raised step is caught and turned into the sentinel
triple. Total by construction. -/
def losersGetCompanyDetails (fetchInfo : Except Unit TickerInfo)
    (translate : String → Except Unit String) (closePrice : ℚ) : String × String × String :=
  match fetchInfo with
  | Except.error _ => ("無法獲取簡介", "N/A", "N/A")
  | Except.ok info =>
    match losersDetailsBody info translate closePrice with
    | Except.ok r => r
    | Except.error _ => ("無法獲取簡介", "N/A", "N/A")

/-- One constituent's metadata from the Wikipedia table: the 'Security'
display name and the 'GICS Sector' category. -/
structure EntityInfo where
  security : String
  sector : String
deriving DecidableEq

/-- Models the fallback of `main` (src/sp500_tracker.py lines 117-120,
src/sp500_losers.py lines 121-123): when the constituent table is empty
(`get_sp500_tickers_info` returns an empty mapping on any failure), the
fixed default list is used, with display name equal to the identifier and
sector "Unknown". -/
def resolveConstituents (sp500Info : List (String × EntityInfo)) : List (String × EntityInfo) :=
  if sp500Info = [] then
    ["AAPL", "NVDA", "MSFT"].map (fun t => (t, EntityInfo.mk t "Unknown"))
  else sp500Info

/-- The external world of one run: the constituent table, the batched
short-window download keyed by the requested ticker list, the per-ticker
long-window download (an error models a raised exception), the outcome of
the uncaught header post, and the outcome of each entity's
render-and-deliver steps (an error models any exception raised inside the
per-entity try-block after the empty check). -/
structure Env where
  sp500Info : List (String × EntityInfo)
  download : List String → List (String × List ℚ)
  longFetch : String → Except Unit (List ℚ)
  headerPost : Except Unit Unit
  deliver : String → Except Unit Unit

/-- Observable calls to the delivery sink and the per-entity error log. -/
inductive Event where
  | headerSent (content : String) : Event
  | reportSent (ticker : String) (filename : String) : Event
  | errorLogged (ticker : String) : Event
deriving DecidableEq

/-- The trace of one run together with whether it ended in an uncaught
exception (only the header post can raise outside a try-block once the
batched data is non-empty). -/
structure RunResult where
  events : List Event
  crashed : Bool
deriving DecidableEq

/-- Models one iteration of the per-entity loop (src/sp500_tracker.py
lines 135-161, src/sp500_losers.py lines 137-162): a raised long-window
fetch is caught and logged; an empty long-window series is skipped with no
output; otherwise the chart is rendered, details fetched (which never
raises), and the report posted with attachment `<ticker>_1Y.png` — any
exception in those steps is caught and logged, and a completed post yields
exactly one report event. -/
def processEntity (env : Env) (ticker : String) : List Event :=
  match env.longFetch ticker with
  | Except.error _ => [Event.errorLogged ticker]
  | Except.ok [] => []
  | Except.ok (_ :: _) =>
    match env.deliver ticker with
    | Except.ok _ => [Event.reportSent ticker (ticker ++ "_1Y.png")]
    | Except.error _ => [Event.errorLogged ticker]

/-- Header text posted by the gainers variant (src/sp500_tracker.py line 133). -/
def trackerHeader : String := "📊 **今日 S&P 500 漲幅前十名個股報告 (中文版)** 📊"

/-- Header text posted by the losers variant (src/sp500_losers.py line 135). -/
def losersHeader : String := "📉 **今日 S&P 500 跌幅最重個股報告** 📉"

/-- Ticker list actually requested from the batched download. -/
def resolvedTickers (env : Env) : List String := (resolveConstituents env.sp500Info).map (fun p => p.1)

/-- Result of the batched short-window download of the run. -/
def downloadData (env : Env) : List (String × List ℚ) := env.download (resolvedTickers env)

/-- Models `returns = data.pct_change().iloc[-1]`: the per-ticker change
series over the short window. -/
def returnsOf (env : Env) : List (String × PVal) :=
  (downloadData env).map (fun p => (p.1, pctChangeLast p.2))

/-- The gainers variant's ranked set, `returns.nlargest(10)`. -/
def rankedTracker (env : Env) : List (String × PVal) := selectTop 10 (returnsOf env)

/-- The losers variant's ranked set, `returns.nsmallest(10)`. -/
def rankedLosers (env : Env) : List (String × PVal) := selectBottom 10 (returnsOf env)

/-- Generic shape of both `main` functions after the startup guard
(src/sp500_tracker.py lines 113-161, src/sp500_losers.py lines 117-162):
an empty batched download returns immediately with no delivery call; the
header is posted next (uncaught, so a raised post crashes the run before
any entity is processed); then each ranked entity is processed in order. -/
def runMain (rank : Env → List (String × PVal)) (header : String) (env : Env) : RunResult :=
  if downloadData env = [] then RunResult.mk [] false
  else
    match env.headerPost with
    | Except.error _ => RunResult.mk [Event.headerSent header] true
    | Except.ok _ =>
      RunResult.mk
        (Event.headerSent header :: (rank env).flatMap (fun p => processEntity env p.1))
        false

/-- `main` of src/sp500_tracker.py. -/
def runTracker (env : Env) : RunResult := runMain rankedTracker trackerHeader env

/-- `main` of src/sp500_losers.py. -/
def runLosers (env : Env) : RunResult := runMain rankedLosers losersHeader env

/-- Python truthiness of the `DISCORD_WEBHOOK_URL` value: `os.getenv`
returns `none` when the variable is unset, and `if not WEBHOOK_URL` treats
both `None` and the empty string as falsy (src/sp500_tracker.py lines
12, 29-31; src/sp500_losers.py lines 12, 28-30). -/
def startupGuard (webhookUrl : Option String) : Bool :=
  match webhookUrl with
  | none => false
  | some s => s ≠ ""

/-- The whole process: the module-level guard runs before any fetch and
exits with status 1 when the webhook value is falsy; otherwise the chosen
`main` runs. -/
def runProcess (script : Env → RunResult) (webhookUrl : Option String)
    (env : Env) : Except Nat RunResult :=
  if startupGuard webhookUrl then Except.ok (script env) else Except.error 1

/-- A concrete environment exercising the skip path: the long window of
every ticker comes back empty. -/
def sampleSkipEnv : Env :=
  Env.mk [("AAPL", EntityInfo.mk "Apple Inc." "Information Technology")]
    (fun _ => [("AAPL", [100, 90])])
    (fun _ => Except.ok [])
    (Except.ok ())
    (fun _ => Except.ok ())

/-- A concrete environment for a completed two-entity run. -/
def sampleRunEnv : Env :=
  Env.mk [("AAPL", EntityInfo.mk "Apple Inc." "Information Technology"),
          ("NVDA", EntityInfo.mk "NVIDIA" "Information Technology")]
    (fun _ => [("AAPL", [0, 90]), ("NVDA", [0, 102])])
    (fun _ => Except.ok [100, 90])
    (Except.ok ())
    (fun _ => Except.ok ())

/-- A concrete environment whose uncaught header post raises. -/
def sampleCrashEnv : Env :=
  Env.mk []
    (fun _ => [("AAPL", [0, 90])])
    (fun _ => Except.ok [100, 90])
    (Except.error ())
    (fun _ => Except.ok ())

/-- A concrete environment whose batched short-window download is empty. -/
def sampleEmptyDataEnv : Env :=
  Env.mk [("AAPL", EntityInfo.mk "Apple Inc." "Information Technology")]
    (fun _ => [])
    (fun _ => Except.ok [100, 90])
    (Except.ok ())
    (fun _ => Except.ok ())

/-- The ticker of a report event, `none` for other events. -/
def reportTicker : Event → Option String
  | Event.reportSent t _ => some t
  | _ => none

/-- Recognizes a header event. -/
def isHeader : Event → Bool
  | Event.headerSent _ => true
  | _ => false

theorem pvGE_refl (v : PVal) : pvGE v v = true := by
  cases v <;> simp [pvGE]

theorem pvGE_total (a b : PVal) : pvGE a b = true ∨ pvGE b a = true := by
  cases a <;> cases b <;> simp [pvGE] <;> exact le_total _ _

theorem pvGE_trans (a b c : PVal) (h1 : pvGE a b = true) (h2 : pvGE b c = true) :
    pvGE a c = true := by
  cases a <;> cases b <;> cases c <;> simp_all [pvGE] <;> exact le_trans h2 h1

theorem pvLE_refl (v : PVal) : pvLE v v = true := pvGE_refl v

theorem pvLE_total (a b : PVal) : pvLE a b = true ∨ pvLE b a = true := by
  simp only [pvLE]
  exact pvGE_total b a

theorem pvLE_trans (a b c : PVal) (h1 : pvLE a b = true) (h2 : pvLE b c = true) :
    pvLE a c = true := pvGE_trans c b a h2 h1

theorem mem_insertBy (le : α → α → Bool) (a x : α) (l : List α) :
    x ∈ insertBy le a l ↔ x = a ∨ x ∈ l := by
  induction l with
  | nil => simp [insertBy]
  | cons b t ih =>
    simp only [insertBy]
    by_cases hab : le a b = true
    · rw [if_pos hab]
      simp [List.mem_cons, or_comm, or_assoc, or_left_comm]
    · rw [if_neg hab]
      simp only [List.mem_cons, ih]
      tauto

theorem insertBy_perm (le : α → α → Bool) (a : α) (l : List α) :
    (insertBy le a l).Perm (a :: l) := by
  induction l with
  | nil => exact List.Perm.refl _
  | cons b t ih =>
    simp only [insertBy]
    by_cases hab : le a b = true
    · rw [if_pos hab]
    · rw [if_neg hab]
      exact (ih.cons b).trans (List.Perm.swap a b t)

theorem sortBy_perm (le : α → α → Bool) (l : List α) : (sortBy le l).Perm l := by
  induction l with
  | nil => exact List.Perm.refl _
  | cons a t ih =>
    exact (insertBy_perm le a (sortBy le t)).trans (ih.cons a)

theorem pairwise_insertBy (le : α → α → Bool)
    (htot : ∀ a b, le a b = true ∨ le b a = true)
    (htrans : ∀ a b c, le a b = true → le b c = true → le a c = true)
    (a : α) (l : List α) (h : l.Pairwise (fun x y => le x y = true)) :
    (insertBy le a l).Pairwise (fun x y => le x y = true) := by
  induction l with
  | nil => simp [insertBy]
  | cons b t ih =>
    rcases List.pairwise_cons.mp h with ⟨hb, ht⟩
    simp only [insertBy]
    by_cases hab : le a b = true
    · rw [if_pos hab]
      refine List.pairwise_cons.mpr ⟨?_, h⟩
      intro y hy
      rcases List.mem_cons.mp hy with rfl | hyt
      · exact hab
      · exact htrans _ _ _ hab (hb y hyt)
    · rw [if_neg hab]
      refine List.pairwise_cons.mpr ⟨?_, ih ht⟩
      intro y hy
      rcases (mem_insertBy le a y t).mp hy with rfl | hyt
      · rcases htot y b with h1 | h1
        · exact absurd h1 hab
        · exact h1
      · exact hb y hyt

theorem pairwise_sortBy (le : α → α → Bool)
    (htot : ∀ a b, le a b = true ∨ le b a = true)
    (htrans : ∀ a b c, le a b = true → le b c = true → le a c = true)
    (l : List α) : (sortBy le l).Pairwise (fun x y => le x y = true) := by
  induction l with
  | nil => simp [sortBy]
  | cons a t ih => exact pairwise_insertBy le htot htrans a (sortBy le t) ih

theorem filter_insertBy (le : α → α → Bool) (q : α → Bool)
    (hq : ∀ a b, q a = true → q b = true → le a b = true)
    (a : α) (l : List α) :
    (insertBy le a l).filter q = if q a then a :: l.filter q else l.filter q := by
  induction l with
  | nil =>
    simp only [insertBy]
    by_cases hqa : q a = true <;> simp [List.filter_cons, hqa]
  | cons b t ih =>
    simp only [insertBy]
    by_cases hab : le a b = true
    · rw [if_pos hab]
      simp [List.filter_cons]
    · rw [if_neg hab]
      simp only [List.filter_cons, ih]
      by_cases hqa : q a = true
      · have hqb : ¬ q b = true := fun hqb => hab (hq a b hqa hqb)
        simp [hqa, hqb]
      · simp [hqa]

theorem filter_sortBy (le : α → α → Bool) (q : α → Bool)
    (hq : ∀ a b, q a = true → q b = true → le a b = true)
    (l : List α) : (sortBy le l).filter q = l.filter q := by
  induction l with
  | nil => rfl
  | cons a t ih =>
    simp only [sortBy]
    rw [filter_insertBy le q hq a (sortBy le t), ih, List.filter_cons]

theorem length_selectTop (n : Nat) (changes : List (String × PVal)) :
    (selectTop n changes).length ≤ n := by
  simp only [selectTop]
  rw [List.length_take]
  exact min_le_left _ _

theorem length_selectBottom (n : Nat) (changes : List (String × PVal)) :
    (selectBottom n changes).length ≤ n := by
  simp only [selectBottom]
  rw [List.length_take]
  exact min_le_left _ _

theorem mem_dropNaN (p : String × PVal) (changes : List (String × PVal))
    (h : p ∈ dropNaN changes) : p ∈ changes ∧ p.2 ≠ PVal.nan := by
  simp only [dropNaN, List.mem_filter, decide_eq_true_eq] at h
  exact h

theorem mem_selectTop (n : Nat) (changes : List (String × PVal)) (p : String × PVal)
    (h : p ∈ selectTop n changes) : p ∈ changes ∧ p.2 ≠ PVal.nan := by
  refine mem_dropNaN p changes ?_
  exact (sortBy_perm _ (dropNaN changes)).subset (List.take_subset n _ h)

theorem mem_selectBottom (n : Nat) (changes : List (String × PVal)) (p : String × PVal)
    (h : p ∈ selectBottom n changes) : p ∈ changes ∧ p.2 ≠ PVal.nan := by
  refine mem_dropNaN p changes ?_
  exact (sortBy_perm _ (dropNaN changes)).subset (List.take_subset n _ h)

theorem pairwise_selectTop (n : Nat) (changes : List (String × PVal)) :
    (selectTop n changes).Pairwise (fun a b => pvGE a.2 b.2 = true) := by
  refine List.Pairwise.sublist (List.take_sublist n _) ?_
  exact pairwise_sortBy _ (fun a b => pvGE_total a.2 b.2)
    (fun a b c h1 h2 => pvGE_trans a.2 b.2 c.2 h1 h2) (dropNaN changes)

theorem pairwise_selectBottom (n : Nat) (changes : List (String × PVal)) :
    (selectBottom n changes).Pairwise (fun a b => pvLE a.2 b.2 = true) := by
  refine List.Pairwise.sublist (List.take_sublist n _) ?_
  exact pairwise_sortBy _ (fun a b => pvLE_total a.2 b.2)
    (fun a b c h1 h2 => pvLE_trans a.2 b.2 c.2 h1 h2) (dropNaN changes)

theorem stable_selectTop (n : Nat) (changes : List (String × PVal)) (v : PVal) :
    ∃ rest, (dropNaN changes).filter (fun p => p.2 = v)
      = (selectTop n changes).filter (fun p => p.2 = v) ++ rest := by
  refine ⟨((sortBy (fun a b => pvGE a.2 b.2) (dropNaN changes)).drop n).filter
    (fun p => p.2 = v), ?_⟩
  have hq : ∀ a b : String × PVal, decide (a.2 = v) = true → decide (b.2 = v) = true →
      pvGE a.2 b.2 = true := by
    intro a b ha hb
    rw [decide_eq_true_eq] at ha hb
    rw [ha, hb]
    exact pvGE_refl v
  have hs := filter_sortBy (fun a b : String × PVal => pvGE a.2 b.2)
    (fun p => decide (p.2 = v)) hq (dropNaN changes)
  calc (dropNaN changes).filter (fun p => p.2 = v)
      = (sortBy (fun a b => pvGE a.2 b.2) (dropNaN changes)).filter (fun p => p.2 = v) :=
        hs.symm
    _ = ((selectTop n changes) ++
          (sortBy (fun a b => pvGE a.2 b.2) (dropNaN changes)).drop n).filter
          (fun p => p.2 = v) := by
        simp only [selectTop]
        rw [List.take_append_drop]
    _ = _ := List.filter_append _ _

theorem stable_selectBottom (n : Nat) (changes : List (String × PVal)) (v : PVal) :
    ∃ rest, (dropNaN changes).filter (fun p => p.2 = v)
      = (selectBottom n changes).filter (fun p => p.2 = v) ++ rest := by
  refine ⟨((sortBy (fun a b => pvLE a.2 b.2) (dropNaN changes)).drop n).filter
    (fun p => p.2 = v), ?_⟩
  have hq : ∀ a b : String × PVal, decide (a.2 = v) = true → decide (b.2 = v) = true →
      pvLE a.2 b.2 = true := by
    intro a b ha hb
    rw [decide_eq_true_eq] at ha hb
    rw [ha, hb]
    exact pvLE_refl v
  have hs := filter_sortBy (fun a b : String × PVal => pvLE a.2 b.2)
    (fun p => decide (p.2 = v)) hq (dropNaN changes)
  calc (dropNaN changes).filter (fun p => p.2 = v)
      = (sortBy (fun a b => pvLE a.2 b.2) (dropNaN changes)).filter (fun p => p.2 = v) :=
        hs.symm
    _ = ((selectBottom n changes) ++
          (sortBy (fun a b => pvLE a.2 b.2) (dropNaN changes)).drop n).filter
          (fun p => p.2 = v) := by
        simp only [selectBottom]
        rw [List.take_append_drop]
    _ = _ := List.filter_append _ _

theorem nodup_selectTop_fst (n : Nat) (changes : List (String × PVal))
    (h : (changes.map (fun p => p.1)).Nodup) :
    ((selectTop n changes).map (fun p => p.1)).Nodup := by
  have h1 : ((dropNaN changes).map (fun p => p.1)).Nodup :=
    h.sublist ((List.filter_sublist changes).map _)
  have h2 : ((sortBy (fun a b => pvGE a.2 b.2) (dropNaN changes)).map
      (fun p => p.1)).Nodup :=
    (((sortBy_perm _ (dropNaN changes)).map _).nodup_iff).mpr h1
  exact h2.sublist ((List.take_sublist n _).map _)

theorem nodup_selectBottom_fst (n : Nat) (changes : List (String × PVal))
    (h : (changes.map (fun p => p.1)).Nodup) :
    ((selectBottom n changes).map (fun p => p.1)).Nodup := by
  have h1 : ((dropNaN changes).map (fun p => p.1)).Nodup :=
    h.sublist ((List.filter_sublist changes).map _)
  have h2 : ((sortBy (fun a b => pvLE a.2 b.2) (dropNaN changes)).map
      (fun p => p.1)).Nodup :=
    (((sortBy_perm _ (dropNaN changes)).map _).nodup_iff).mpr h1
  exact h2.sublist ((List.take_sublist n _).map _)

theorem qfloor_intCast (m : ℤ) : qfloor (m : ℚ) = m := by
  simp [qfloor]

theorem roundHalfEven_intCast (m : ℤ) : roundHalfEven (m : ℚ) = m := by
  simp only [roundHalfEven, qfloor_intCast]
  norm_num

theorem fmt2_eq_of (q : ℚ) (m : ℤ) (h : q * 100 = (m : ℚ)) :
    fmt2 q = (if m < 0 then "-" else "") ++ toString (m.natAbs / 100) ++ "." ++
      pad2 (m.natAbs % 100) := by
  simp only [fmt2, h, roundHalfEven_intCast]

theorem pyTruncate_eq_take (n : Nat) (s : String) :
    pyTruncate n s = String.mk (s.data.take n) := by
  simp only [pyTruncate]
  by_cases h : n < s.data.length
  · rw [if_pos h]
  · rw [if_neg h, List.take_of_length_le (Nat.le_of_not_lt h)]

theorem filterMap_reportTicker_processEntity (env : Env) (t : String) :
    List.Sublist ((processEntity env t).filterMap reportTicker) [t] := by
  simp only [processEntity]
  cases env.longFetch t with
  | error e => simp [reportTicker]
  | ok l =>
    cases l with
    | nil => simp
    | cons a l' =>
      cases env.deliver t with
      | ok u => simp [reportTicker]
      | error e => simp [reportTicker]

theorem countP_isHeader_processEntity (env : Env) (t : String) :
    (processEntity env t).countP isHeader = 0 := by
  simp only [processEntity]
  cases env.longFetch t with
  | error e => simp [isHeader, List.countP_cons]
  | ok l =>
    cases l with
    | nil => rfl
    | cons a l' =>
      cases env.deliver t with
      | ok u => simp [isHeader, List.countP_cons]
      | error e => simp [isHeader, List.countP_cons]

theorem mem_processEntity_reportSent (env : Env) (u t fn : String)
    (h : Event.reportSent t fn ∈ processEntity env u) : t = u ∧ fn = u ++ "_1Y.png" := by
  simp only [processEntity] at h
  cases hl : env.longFetch u with
  | error e => rw [hl] at h; simp at h
  | ok l =>
    rw [hl] at h
    cases l with
    | nil => simp at h
    | cons a l' =>
      cases hd : env.deliver u with
      | ok v =>
        rw [hd] at h
        simp only [List.mem_singleton, Event.reportSent.injEq] at h
        exact h
      | error e => rw [hd] at h; simp at h

theorem filterMap_reportTicker_flatMap (env : Env) (l : List (String × PVal)) :
    List.Sublist ((l.flatMap (fun p => processEntity env p.1)).filterMap reportTicker)
      (l.map (fun p => p.1)) := by
  induction l with
  | nil => simp
  | cons p t ih =>
    rw [List.flatMap_cons, List.filterMap_append, List.map_cons]
    show List.Sublist _ ([p.1] ++ t.map (fun p => p.1))
    exact List.Sublist.append (filterMap_reportTicker_processEntity env p.1) ih

theorem countP_isHeader_flatMap (env : Env) (l : List (String × PVal)) :
    (l.flatMap (fun p => processEntity env p.1)).countP isHeader = 0 := by
  induction l with
  | nil => rfl
  | cons p t ih =>
    rw [List.flatMap_cons, List.countP_append, ih, countP_isHeader_processEntity]

theorem pctChangeLast_concat (pre : List ℚ) (prior last : ℚ) :
    pctChangeLast (pre ++ [prior, last]) =
      if prior = 0 then
        if last = 0 then PVal.nan else if 0 < last then PVal.posInf else PVal.negInf
      else PVal.val ((last - prior) / prior) := by
  have h : (pre ++ [prior, last]).reverse = last :: prior :: pre.reverse := by simp
  rw [pctChangeLast, h]
  rfl

/-- C1, amended. For a series with at least two points and a nonzero prior
value the change is exactly (last - prior) / prior; a series with fewer
than two points yields NaN, and NaN entries are excluded from both
rankings. A zero prior, however, yields NaN only when the last value is
also zero: otherwise it yields a signed infinity, which is not excluded
from ranking (pandas `pct_change` divides by the zero prior and `nlargest`
keeps infinities). -/
theorem claim_C1 : ∀ (pre : List ℚ) (prior last : ℚ),
    (prior ≠ 0 → pctChangeLast (pre ++ [prior, last]) = PVal.val ((last - prior) / prior)) ∧
    (∀ s : List ℚ, s.length < 2 → pctChangeLast s = PVal.nan) ∧
    (pctChangeLast (pre ++ [0, last]) =
      if last = 0 then PVal.nan else if 0 < last then PVal.posInf else PVal.negInf) ∧
    (∀ (n : Nat) (changes : List (String × PVal)) (p : String × PVal),
      p ∈ selectTop n changes → p.2 ≠ PVal.nan) ∧
    (∀ (n : Nat) (changes : List (String × PVal)) (p : String × PVal),
      p ∈ selectBottom n changes → p.2 ≠ PVal.nan) := by
  intro pre prior last
  refine ⟨?_, ?_, ?_, ?_, ?_⟩
  · intro h
    rw [pctChangeLast_concat, if_neg h]
  · intro s hs
    cases s with
    | nil => rfl
    | cons a s' =>
      cases s' with
      | nil => rfl
      | cons b t =>
        simp only [List.length_cons] at hs
        omega
  · rw [pctChangeLast_concat, if_pos rfl]
  · exact fun n changes p h => (mem_selectTop n changes p h).2
  · exact fun n changes p h => (mem_selectBottom n changes p h).2

/-- Witness for C1 at a concrete series: [100, 90] gives exactly -1/10,
and a one-point series gives NaN. -/
theorem claim_C1_witness :
    pctChangeLast [(100 : ℚ), 90] = PVal.val (-(1/10)) ∧
    pctChangeLast [(50 : ℚ)] = PVal.nan := by
  constructor
  · have h := (claim_C1 [] 100 90).1 (by norm_num)
    rw [List.nil_append] at h
    rw [h]
    norm_num
  · exact (claim_C1 [] 1 1).2.1 [(50 : ℚ)] (by norm_num)

/-- Counterexample to C1 as stated: the series [0, 90] has two points and
prior value 0, yet its change is +∞, not an undefined value, and the
entity carrying it is included (first) in the gainers ranking instead of
being excluded. -/
theorem claim_C1_counterexample :
    pctChangeLast [(0 : ℚ), 90] = PVal.posInf ∧
    ("A", PVal.posInf) ∈
      selectTop 10 [("A", pctChangeLast [(0 : ℚ), 90]), ("B", PVal.val 1)] := by
  constructor
  · decide
  · decide

/-- C2: both selections return at most 10 entries, only entries of the
input with a non-NaN change, ordered by the change value (descending for
the gainers variant, ascending for the losers variant), and, for every
value, the selected entries carrying that value form an initial segment of
the input's entries with that value in input order (stable ties). -/
theorem claim_C2 : ∀ (changes : List (String × PVal)),
    (selectTop 10 changes).length ≤ 10 ∧
    (selectBottom 10 changes).length ≤ 10 ∧
    (∀ p : String × PVal, p ∈ selectTop 10 changes → p ∈ changes ∧ p.2 ≠ PVal.nan) ∧
    (∀ p : String × PVal, p ∈ selectBottom 10 changes → p ∈ changes ∧ p.2 ≠ PVal.nan) ∧
    (selectTop 10 changes).Pairwise (fun a b => pvGE a.2 b.2 = true) ∧
    (selectBottom 10 changes).Pairwise (fun a b => pvLE a.2 b.2 = true) ∧
    (∀ v : PVal, ∃ rest, (dropNaN changes).filter (fun p => p.2 = v)
      = (selectTop 10 changes).filter (fun p => p.2 = v) ++ rest) ∧
    (∀ v : PVal, ∃ rest, (dropNaN changes).filter (fun p => p.2 = v)
      = (selectBottom 10 changes).filter (fun p => p.2 = v) ++ rest) := by
  intro changes
  exact ⟨length_selectTop 10 changes, length_selectBottom 10 changes,
    fun p h => mem_selectTop 10 changes p h,
    fun p h => mem_selectBottom 10 changes p h,
    pairwise_selectTop 10 changes, pairwise_selectBottom 10 changes,
    fun v => stable_selectTop 10 changes v,
    fun v => stable_selectBottom 10 changes v⟩

/-- Witness for C2 at a concrete input containing a NaN entry: the
selected entry is in the input and its change is not NaN. -/
theorem claim_C2_witness :
    ("A", PVal.val 1) ∈ [("A", PVal.val 1), ("B", PVal.nan)] ∧
    ("A", PVal.val 1).2 ≠ PVal.nan := by
  exact (claim_C2 [("A", PVal.val 1), ("B", PVal.nan)]).2.2.1 ("A", PVal.val 1) (by decide)

/-- C3, amended. The heuristic holds in the losers variant: when the
trailing-dividend amount is unusable (absent, or the close price is not
positive) and a raw ratio is present, a raw value above 0.3 renders as-is
and a raw value at most 0.3 is scaled by 100, while an absent raw field
renders "N/A". The gainers variant, however, has no such heuristic: it
always scales a numeric raw ratio by 100. -/
theorem claim_C3 : ∀ (raw closePrice : ℚ) (dividendYield : Option ℚ),
    (losersDivYieldFallback (some raw) =
      if (3 : ℚ)/10 < raw then fmt2 raw ++ "%" else fmt2 (raw * 100) ++ "%") ∧
    (losersDivYieldFallback none = "N/A") ∧
    (losersDivYield none dividendYield closePrice = losersDivYieldFallback dividendYield) ∧
    (closePrice ≤ 0 → losersDivYield (some raw) dividendYield closePrice =
      losersDivYieldFallback dividendYield) ∧
    (trackerDivYield (some raw) = fmt2 (raw * 100) ++ "%") ∧
    (trackerDivYield none = "N/A") := by
  intro raw closePrice dividendYield
  refine ⟨rfl, rfl, rfl, ?_, rfl, rfl⟩
  intro h
  simp only [losersDivYield]
  rw [if_neg (not_lt.mpr h)]

/-- Witness for C3 at the spec's own example: raw ratio 0.045 (reached via
the fallback because the close price is not positive) renders "4.50%". -/
theorem claim_C3_witness :
    losersDivYield (some 1) (some ((9 : ℚ)/200)) 0 = "4.50%" := by
  have h4 := (claim_C3 1 0 (some ((9 : ℚ)/200))).2.2.2.1 (le_refl 0)
  have h1 := (claim_C3 ((9 : ℚ)/200) 0 none).1
  rw [h4, h1, if_neg (by norm_num), fmt2_eq_of ((9 : ℚ)/200 * 100) 450 (by norm_num)]
  decide

/-- Counterexample to C3 as stated: in the gainers variant, with no
trailing-dividend amount in play and the raw ratio 0.35 (greater than
0.3), the yield is scaled by 100 and rendered "35.00%"; it is not rendered
as-is, which would give "0.35%". -/
theorem claim_C3_counterexample :
    (3 : ℚ)/10 < 7/20 ∧
    trackerDivYield (some ((7 : ℚ)/20)) = "35.00%" ∧
    trackerDivYield (some ((7 : ℚ)/20)) ≠ fmt2 ((7 : ℚ)/20) ++ "%" := by
  refine ⟨by norm_num, ?_, ?_⟩
  · show fmt2 ((7 : ℚ)/20 * 100) ++ "%" = "35.00%"
    rw [fmt2_eq_of ((7 : ℚ)/20 * 100) 3500 (by norm_num)]
    decide
  · show fmt2 ((7 : ℚ)/20 * 100) ++ "%" ≠ fmt2 ((7 : ℚ)/20) ++ "%"
    rw [fmt2_eq_of ((7 : ℚ)/20 * 100) 3500 (by norm_num),
        fmt2_eq_of ((7 : ℚ)/20) 35 (by norm_num)]
    decide

/-- C4: with a numeric trailing-dividend amount and a positive close
price, the losers variant reports fmt2(max(rate / close × 100, 0)) ++ "%"
— i.e. the recomputed value to two decimals, floored at "0.00%" for a
non-positive result — and the result does not depend on the raw
`dividendYield` field (the recomputation takes precedence). -/
theorem claim_C4 : ∀ (rate closePrice : ℚ) (dy dy' : Option ℚ),
    0 < closePrice →
    losersDivYield (some rate) dy closePrice =
      fmt2 (max (rate / closePrice * 100) 0) ++ "%" ∧
    losersDivYield (some rate) dy closePrice = losersDivYield (some rate) dy' closePrice ∧
    (rate / closePrice * 100 ≤ 0 → losersDivYield (some rate) dy closePrice = "0.00%") := by
  intro rate closePrice dy dy' hc
  have key : ∀ d : Option ℚ, losersDivYield (some rate) d closePrice =
      fmt2 (max (rate / closePrice * 100) 0) ++ "%" := by
    intro d
    simp only [losersDivYield]
    rw [if_pos hc]
    by_cases h : 0 < rate / closePrice * 100
    · rw [if_pos h, max_eq_left (le_of_lt h)]
    · rw [if_neg h, max_eq_right (le_of_not_lt h), fmt2_eq_of 0 0 (by norm_num)]
      decide
  refine ⟨key dy, (key dy).trans (key dy').symm, ?_⟩
  intro hle
  rw [key dy, max_eq_right hle, fmt2_eq_of 0 0 (by norm_num)]
  decide

/-- Witness for C4 at the spec's own example: trailing amount 2.00 with
close price 100.00 yields "2.00%", whatever the raw ratio field holds. -/
theorem claim_C4_witness :
    losersDivYield (some 2) (some ((9 : ℚ)/2)) 100 = "2.00%" := by
  have h := (claim_C4 2 100 (some ((9 : ℚ)/2)) none (by norm_num)).1
  have h2 : (2 : ℚ)/100 * 100 = 2 := by norm_num
  rw [h2] at h
  have h3 : max (2 : ℚ) 0 = 2 := max_eq_left (by norm_num)
  rw [h3] at h
  rw [h, fmt2_eq_of 2 200 (by norm_num)]
  decide

/-- C5: for a fetched metadata record, the summary component of both
variants is exactly: empty long-form text → the no-summary sentinel;
otherwise the first 300 characters of the text go to translation; a raised
translation → the unavailable sentinel; success → the translated text with
the "..." continuation marker appended. Both sides are total functions, so
the summary step always yields some string and never aborts. -/
theorem claim_C5 : ∀ (info : TickerInfo) (translate : String → Except Unit String)
    (closePrice : ℚ),
    (trackerGetCompanyDetails (Except.ok info) translate).1 =
      (if info.longBusinessSummary = "" then "暫無簡介"
       else match translate (String.mk (info.longBusinessSummary.data.take 300)) with
            | Except.ok t => t ++ "..."
            | Except.error _ => "無法獲取簡介 (翻譯失敗)") ∧
    (losersGetCompanyDetails (Except.ok info) translate closePrice).1 =
      (if info.longBusinessSummary = "" then "暫無簡介"
       else match translate (String.mk (info.longBusinessSummary.data.take 300)) with
            | Except.ok t => t ++ "..."
            | Except.error _ => "無法獲取簡介") := by
  intro info translate closePrice
  constructor
  · simp only [trackerGetCompanyDetails, trackerDetailsBody, pyTruncate_eq_take]
    by_cases h : info.longBusinessSummary = ""
    · simp [h]
    · cases ht : translate (String.mk (info.longBusinessSummary.data.take 300)) with
      | ok t => simp [h, ht]
      | error e => simp [h, ht]
  · simp only [losersGetCompanyDetails, losersDetailsBody, pyTruncate_eq_take]
    by_cases h : info.longBusinessSummary = ""
    · simp [h]
    · cases ht : translate (String.mk (info.longBusinessSummary.data.take 300)) with
      | ok t => simp [h, ht]
      | error e => simp [h, ht]

/-- C6: when the metadata fetch itself raises, or when the text is
non-empty and the translation raises, both variants return the sentinel
summary together with "N/A" for the valuation ratio and the yield; being
total functions they can never propagate an exception to the caller, and
being applied per entity they cannot affect sibling entities. -/
theorem claim_C6 : ∀ (translate : String → Except Unit String) (closePrice : ℚ)
    (fetchInfo : Except Unit TickerInfo) (info : TickerInfo),
    (fetchInfo = Except.error () →
      trackerGetCompanyDetails fetchInfo translate
        = ("無法獲取簡介 (翻譯失敗)", "N/A", "N/A") ∧
      losersGetCompanyDetails fetchInfo translate closePrice
        = ("無法獲取簡介", "N/A", "N/A")) ∧
    (info.longBusinessSummary ≠ "" →
      translate (pyTruncate 300 info.longBusinessSummary) = Except.error () →
      trackerGetCompanyDetails (Except.ok info) translate
        = ("無法獲取簡介 (翻譯失敗)", "N/A", "N/A") ∧
      losersGetCompanyDetails (Except.ok info) translate closePrice
        = ("無法獲取簡介", "N/A", "N/A")) := by
  intro translate closePrice fetchInfo info
  constructor
  · rintro rfl
    exact ⟨rfl, rfl⟩
  · intro hne ht
    constructor
    · simp [trackerGetCompanyDetails, trackerDetailsBody, hne, ht]
    · simp [losersGetCompanyDetails, losersDetailsBody, hne, ht]

/-- Witness for C6: a raised fetch and a raised translation both produce
the sentinel triples at concrete inputs. -/
theorem claim_C6_witness :
    trackerGetCompanyDetails (Except.error ()) (fun _ => Except.error ())
      = ("無法獲取簡介 (翻譯失敗)", "N/A", "N/A") ∧
    losersGetCompanyDetails (Except.ok (TickerInfo.mk none none none none "hello"))
      (fun _ => Except.error ()) 1 = ("無法獲取簡介", "N/A", "N/A") := by
  constructor
  · exact ((claim_C6 (fun _ => Except.error ()) 1 (Except.error ())
      (TickerInfo.mk none none none none "")).1 rfl).1
  · exact ((claim_C6 (fun _ => Except.error ()) 1 (Except.error ())
      (TickerInfo.mk none none none none "hello")).2 (by decide) rfl).2

theorem returnsOf_map_fst (env : Env) :
    (returnsOf env).map (fun p => p.1) = (downloadData env).map (fun p => p.1) := by
  simp [returnsOf, List.map_map]

theorem rankedTracker_nil_of (env : Env) (h : downloadData env = []) :
    rankedTracker env = [] := by
  simp [rankedTracker, returnsOf, h, selectTop, dropNaN, sortBy]

theorem rankedLosers_nil_of (env : Env) (h : downloadData env = []) :
    rankedLosers env = [] := by
  simp [rankedLosers, returnsOf, h, selectBottom, dropNaN, sortBy]

theorem runMain_segment (rank : Env → List (String × PVal)) (header : String) (env : Env)
    (hrank : downloadData env = [] → rank env = [])
    (hok : env.headerPost = Except.ok ()) (p : String × PVal) (hp : p ∈ rank env) :
    ∃ pre post, (runMain rank header env).events = pre ++ processEntity env p.1 ++ post := by
  by_cases hd : downloadData env = []
  · rw [hrank hd] at hp
    simp at hp
  · obtain ⟨s, t2, hst⟩ := List.append_of_mem hp
    refine ⟨Event.headerSent header :: s.flatMap (fun q => processEntity env q.1),
      t2.flatMap (fun q => processEntity env q.1), ?_⟩
    simp only [runMain]
    rw [if_neg hd, hok]
    simp only [hst, List.flatMap_append, List.flatMap_cons]
    simp [List.append_assoc]

theorem runMain_events_nil (rank : Env → List (String × PVal)) (header : String) (env : Env) :
    (runMain rank header env).events = [] ↔ downloadData env = [] := by
  by_cases hd : downloadData env = []
  · simp [runMain, hd]
  · simp only [runMain, if_neg hd]
    cases env.headerPost with
    | error e => simp [hd]
    | ok u => simp [hd]

theorem runMain_crashed (rank : Env → List (String × PVal)) (header : String) (env : Env) :
    (runMain rank header env).crashed = true ↔
      downloadData env ≠ [] ∧ env.headerPost = Except.error () := by
  by_cases hd : downloadData env = []
  · simp [runMain, hd]
  · simp only [runMain, if_neg hd]
    cases hp : env.headerPost with
    | error e =>
      cases e
      simp [hd]
    | ok u => simp [hd, hp]

theorem runMain_head (rank : Env → List (String × PVal)) (header : String) (env : Env)
    (hd : downloadData env ≠ []) :
    (runMain rank header env).events.head? = some (Event.headerSent header) := by
  simp only [runMain]
  rw [if_neg hd]
  cases env.headerPost with
  | error e => rfl
  | ok u => rfl

theorem runMain_countP_header (rank : Env → List (String × PVal)) (header : String)
    (env : Env) (hd : downloadData env ≠ []) :
    (runMain rank header env).events.countP isHeader = 1 := by
  simp only [runMain]
  rw [if_neg hd]
  cases env.headerPost with
  | error e => rfl
  | ok u =>
    simp [List.countP_cons, isHeader, countP_isHeader_flatMap]

theorem runMain_reports_sublist (rank : Env → List (String × PVal)) (header : String)
    (env : Env) :
    List.Sublist ((runMain rank header env).events.filterMap reportTicker)
      ((rank env).map (fun p => p.1)) := by
  by_cases hd : downloadData env = []
  · simp [runMain, hd]
  · simp only [runMain]
    rw [if_neg hd]
    cases env.headerPost with
    | error e => simp [reportTicker]
    | ok u =>
      simp only [List.filterMap_cons, reportTicker]
      exact filterMap_reportTicker_flatMap env (rank env)

theorem runMain_filenames (rank : Env → List (String × PVal)) (header : String)
    (env : Env) (t fn : String)
    (h : Event.reportSent t fn ∈ (runMain rank header env).events) :
    fn = t ++ "_1Y.png" := by
  by_cases hd : downloadData env = []
  · rw [runMain] at h
    rw [if_pos hd] at h
    simp at h
  · rw [runMain] at h
    rw [if_neg hd] at h
    cases hp : env.headerPost with
    | error e =>
      rw [hp] at h
      simp at h
    | ok u =>
      rw [hp] at h
      simp only [List.mem_cons] at h
      rcases h with h | h
      · exact absurd h (by simp)
      · obtain ⟨q, hq, hmem⟩ := List.mem_flatMap.mp h
        rcases mem_processEntity_reportSent env q.1 t fn hmem with ⟨h1, h2⟩
        rw [← h1] at h2
        exact h2

theorem runMain_report_count (rank : Env → List (String × PVal)) (header : String)
    (env : Env) (hnd : ((rank env).map (fun p => p.1)).Nodup) (t : String) :
    ((runMain rank header env).events.filterMap reportTicker).count t ≤ 1 :=
  le_trans ((runMain_reports_sublist rank header env).count_le t)
    (List.nodup_iff_count_le_one.mp hnd t)

/-- C7, amended. Per-entity failures are contained: an entity whose
long-window series is empty is skipped entirely (no events, hence no
report), a raised long-window fetch is caught and only logged, and — when
the header post succeeds — every ranked entity's processing appears in
the trace regardless of the outcomes of the other entities. The trace is
empty exactly when the batched short-window download is empty. However,
beyond the fatal-startup and wholesale-fetch conditions, one more
condition terminates the run early: the header delivery call is outside
any try-block, and a raised header post crashes the run (after the header
attempt, before any entity is processed). -/
theorem claim_C7 : ∀ (env : Env),
    (∀ t : String, env.longFetch t = Except.ok [] → processEntity env t = []) ∧
    (∀ (t : String) (e : Unit), env.longFetch t = Except.error e →
      processEntity env t = [Event.errorLogged t]) ∧
    (env.headerPost = Except.ok () → ∀ p ∈ rankedTracker env, ∃ pre post,
      (runTracker env).events = pre ++ processEntity env p.1 ++ post) ∧
    (env.headerPost = Except.ok () → ∀ p ∈ rankedLosers env, ∃ pre post,
      (runLosers env).events = pre ++ processEntity env p.1 ++ post) ∧
    ((runTracker env).events = [] ↔ downloadData env = []) ∧
    ((runLosers env).events = [] ↔ downloadData env = []) ∧
    ((runTracker env).crashed = true ↔
      downloadData env ≠ [] ∧ env.headerPost = Except.error ()) ∧
    ((runLosers env).crashed = true ↔
      downloadData env ≠ [] ∧ env.headerPost = Except.error ()) := by
  intro env
  refine ⟨?_, ?_, ?_, ?_, ?_, ?_, ?_, ?_⟩
  · intro t h
    simp [processEntity, h]
  · intro t e h
    simp [processEntity, h]
  · intro hok p hp
    exact runMain_segment rankedTracker trackerHeader env (rankedTracker_nil_of env) hok p hp
  · intro hok p hp
    exact runMain_segment rankedLosers losersHeader env (rankedLosers_nil_of env) hok p hp
  · exact runMain_events_nil rankedTracker trackerHeader env
  · exact runMain_events_nil rankedLosers losersHeader env
  · exact runMain_crashed rankedTracker trackerHeader env
  · exact runMain_crashed rankedLosers losersHeader env

/-- Witness for C7: in a concrete environment whose long windows come back
empty, the entity is skipped with no events at all. -/
theorem claim_C7_witness : processEntity sampleSkipEnv "AAPL" = [] :=
  (claim_C7 sampleSkipEnv).1 "AAPL" rfl

/-- Counterexample to C7 as stated: in a concrete environment whose
batched download is non-empty and whose ranking selects an entity, a
raised header post terminates the run early — no entity is processed —
even though neither the fatal-startup nor the wholesale-fetch condition
holds. -/
theorem claim_C7_counterexample :
    runTracker sampleCrashEnv = RunResult.mk [Event.headerSent trackerHeader] true ∧
    downloadData sampleCrashEnv ≠ [] ∧
    rankedTracker sampleCrashEnv ≠ [] := by
  refine ⟨?_, by decide, by decide⟩
  decide

/-- C8: in every run whose batched download is non-empty (the run reaches
the delivery phase) and whose batched result has no duplicate tickers,
both variants emit the header as the very first event, emit exactly one
header over the whole run, emit report events whose tickers form a
sublist of the ranked tickers in ranked order (hence at most one report
per selected entity, in RankedSet order, and no report before the
header), and attach every report under the name `<ticker>_1Y.png`. -/
theorem claim_C8 : ∀ (env : Env),
    downloadData env ≠ [] →
    ((downloadData env).map (fun p => p.1)).Nodup →
    ((runTracker env).events.head? = some (Event.headerSent trackerHeader) ∧
     (runTracker env).events.countP isHeader = 1 ∧
     List.Sublist ((runTracker env).events.filterMap reportTicker)
       ((rankedTracker env).map (fun p => p.1)) ∧
     (∀ t fn : String, Event.reportSent t fn ∈ (runTracker env).events →
       fn = t ++ "_1Y.png") ∧
     (∀ t : String, ((runTracker env).events.filterMap reportTicker).count t ≤ 1)) ∧
    ((runLosers env).events.head? = some (Event.headerSent losersHeader) ∧
     (runLosers env).events.countP isHeader = 1 ∧
     List.Sublist ((runLosers env).events.filterMap reportTicker)
       ((rankedLosers env).map (fun p => p.1)) ∧
     (∀ t fn : String, Event.reportSent t fn ∈ (runLosers env).events →
       fn = t ++ "_1Y.png") ∧
     (∀ t : String, ((runLosers env).events.filterMap reportTicker).count t ≤ 1)) := by
  intro env hd hnd
  have hndR : ((returnsOf env).map (fun p => p.1)).Nodup := by
    rw [returnsOf_map_fst]
    exact hnd
  constructor
  · exact ⟨runMain_head rankedTracker trackerHeader env hd,
      runMain_countP_header rankedTracker trackerHeader env hd,
      runMain_reports_sublist rankedTracker trackerHeader env,
      fun t fn h => runMain_filenames rankedTracker trackerHeader env t fn h,
      fun t => runMain_report_count rankedTracker trackerHeader env
        (nodup_selectTop_fst 10 (returnsOf env) hndR) t⟩
  · exact ⟨runMain_head rankedLosers losersHeader env hd,
      runMain_countP_header rankedLosers losersHeader env hd,
      runMain_reports_sublist rankedLosers losersHeader env,
      fun t fn h => runMain_filenames rankedLosers losersHeader env t fn h,
      fun t => runMain_report_count rankedLosers losersHeader env
        (nodup_selectBottom_fst 10 (returnsOf env) hndR) t⟩

/-- Witness for C8 at a concrete two-entity run: the first trace event is
the header. -/
theorem claim_C8_witness :
    (runTracker sampleRunEnv).events.head? = some (Event.headerSent trackerHeader) :=
  ((claim_C8 sampleRunEnv (by decide) (by decide)).1).1

/-- C9, amended. A missing webhook value exits the process with status 1
before any fetch — the outcome is independent of the whole environment —
and any non-empty value lets the chosen run proceed; however, a
present-but-empty value is also treated as falsy by the guard and exits
with status 1 instead of proceeding. -/
theorem claim_C9 : ∀ (env env' : Env) (url : String),
    runProcess runTracker none env = Except.error 1 ∧
    runProcess runLosers none env = Except.error 1 ∧
    runProcess runTracker (some "") env = Except.error 1 ∧
    runProcess runLosers (some "") env = Except.error 1 ∧
    runProcess runTracker none env = runProcess runTracker none env' ∧
    (url ≠ "" → runProcess runTracker (some url) env = Except.ok (runTracker env) ∧
      runProcess runLosers (some url) env = Except.ok (runLosers env)) := by
  intro env env' url
  refine ⟨rfl, rfl, rfl, rfl, rfl, ?_⟩
  intro h
  constructor
  · simp [runProcess, startupGuard, h]
  · simp [runProcess, startupGuard, h]

/-- Witness for C9: a non-empty webhook value lets the run proceed. -/
theorem claim_C9_witness :
    runProcess runTracker (some "x") sampleRunEnv = Except.ok (runTracker sampleRunEnv) :=
  ((claim_C9 sampleRunEnv sampleRunEnv "x").2.2.2.2.2 (by decide)).1

/-- Counterexample to C9 as stated: with the configuration value present
but empty (`os.getenv` returns "" when the variable is set to the empty
string), the process exits with status 1 instead of proceeding to the
constituent fetch. -/
theorem claim_C9_counterexample :
    runProcess runTracker (some "") sampleRunEnv = Except.error 1 ∧
    runProcess runTracker (some "") sampleRunEnv ≠ Except.ok (runTracker sampleRunEnv) := by
  constructor
  · rfl
  · intro h
    rw [show runProcess runTracker (some "") sampleRunEnv = Except.error 1 from rfl] at h
    exact Except.noConfusion h

/-- C10: an empty batched short-window download aborts both runs with no
events at all (no header, no per-entity message) and no crash; an empty
constituent table (the wholesale constituent-fetch failure, which
`get_sp500_tickers_info` collapses to an empty mapping) substitutes the
fixed default set with display name equal to the identifier and sector
"Unknown", the batched download is then requested for exactly those
tickers, and the run proceeds past that step rather than aborting: its
header still goes out whenever that download is non-empty. -/
theorem claim_C10 : ∀ (env : Env),
    (downloadData env = [] →
      runTracker env = RunResult.mk [] false ∧ runLosers env = RunResult.mk [] false) ∧
    (resolveConstituents [] =
      [("AAPL", EntityInfo.mk "AAPL" "Unknown"), ("NVDA", EntityInfo.mk "NVDA" "Unknown"),
       ("MSFT", EntityInfo.mk "MSFT" "Unknown")]) ∧
    (env.sp500Info = [] → resolvedTickers env = ["AAPL", "NVDA", "MSFT"]) ∧
    (env.sp500Info = [] → env.download ["AAPL", "NVDA", "MSFT"] ≠ [] →
      (runTracker env).events.head? = some (Event.headerSent trackerHeader) ∧
      (runLosers env).events.head? = some (Event.headerSent losersHeader)) := by
  intro env
  refine ⟨?_, rfl, ?_, ?_⟩
  · intro hd
    constructor
    · simp only [runTracker, runMain]
      rw [if_pos hd]
    · simp only [runLosers, runMain]
      rw [if_pos hd]
  · intro h
    simp [resolvedTickers, resolveConstituents, h]
  · intro h hne
    have hd : downloadData env ≠ [] := by
      simpa [downloadData, resolvedTickers, resolveConstituents, h] using hne
    exact ⟨runMain_head rankedTracker trackerHeader env hd,
      runMain_head rankedLosers losersHeader env hd⟩

/-- Witness for C10: a concrete environment whose batched download is
empty produces a completely silent run in both variants. -/
theorem claim_C10_witness :
    runTracker sampleEmptyDataEnv = RunResult.mk [] false ∧
    runLosers sampleEmptyDataEnv = RunResult.mk [] false :=
  (claim_C10 sampleEmptyDataEnv).1 rfl

end SP500
